import Mathlib

/-!
# FlowNLP: the chat proxy handler of main.go

A shallow embedding of `handleChat` (src/main.go, lines 55-118) and of the three
payload types it decodes and encodes, followed by the properties of the
request pipeline: authentication, validation, the single outbound call and
the mapping of backend outcomes to responses.

Conventions of the embedding.

* A run of `handleChat` is a pure function from the environment
  (`os.Getenv`), the behaviour of the backend (the result of `client.Do`)
  and the inbound request to the ordered trace of effects the Go code
  performs: log lines, calls on the `http.ResponseWriter`, outbound calls.
* JSON texts are represented by the value they denote (`Json`).  A body
  that does not start with a well-formed JSON value (malformed, empty,
  unreadable) is `none`.  Decoding a value into a Go struct follows
  `encoding/json`: keys are matched to field names case-insensitively,
  unknown keys are skipped, `null` leaves a field untouched, a value of
  the wrong JSON type is an error.
* Go strings are Lean strings; `==` on Go strings is equality.
-/

namespace FlowNLP

/-! ## JSON values -/

/-- A JSON value.  A number is kept as `mantissa * 10 ^ exponent`; an object
keeps its members in the order of the text, duplicates included. -/
inductive Json where
  | null : Json
  | bool (b : Bool) : Json
  | num (mantissa exponent : Int) : Json
  | str (s : String) : Json
  | arr (elems : List Json) : Json
  | obj (members : List (String × Json)) : Json

/-- The members of an object, in order; none for other values. -/
def Json.members : Json → List (String × Json)
  | .obj members => members
  | _ => []

/-- The member names of an object, in order; no names for other values. -/
def Json.memberNames (v : Json) : List String := v.members.map Prod.fst

/-! ## The payload types (main.go, lines 17-33) -/

/-- Go: `type Message struct`, tags `role`, `content`. -/
structure Message where
  Role : String
  Content : String
  deriving DecidableEq, Repr

/-- Go: `type ChatRequest struct`, tags `model`, `messages`, `stream`. -/
structure ChatRequest where
  Model : String
  Messages : List Message
  Stream : Bool
  deriving DecidableEq, Repr

/-- Go: `type ChatResponse struct`, tags `model`, `created_at`, `done`, `message`. -/
structure ChatResponse where
  Model : String
  CreatedAt : String
  Done : Bool
  Message : Message
  deriving DecidableEq, Repr

/-- The zero value of `Message`. -/
def Message.zero : Message := ⟨"", ""⟩

/-- The zero value of `ChatRequest` (`var chatReq ChatRequest`). -/
def ChatRequest.zero : ChatRequest := ⟨"", [], false⟩

/-- The zero value of `ChatResponse` (`var chatResp ChatResponse`). -/
def ChatResponse.zero : ChatResponse := ⟨"", "", false, Message.zero⟩

/-! ## encoding/json: decoding -/

/-- Case folding of one character of a key, restricted to what can match
the ASCII field names used here: a lower-case ASCII letter folds to its
upper-case form, and the two non-ASCII characters whose simple case folding
reaches an ASCII letter (U+017F long s, U+212A Kelvin sign) fold to `S` and
`K`.  Every other character is left alone. -/
def foldRune (c : Char) : Char :=
  if 97 ≤ c.toNat ∧ c.toNat ≤ 122 then Char.ofNat (c.toNat - 32)
  else if c.toNat = 0x17F then 'S'
  else if c.toNat = 0x212A then 'K'
  else c

/-- The folded form of a key or field name; two names denote the same
struct field when their folded forms are equal. -/
def foldName (s : String) : List Char := s.data.map foldRune

/-- Decoding a JSON value into a Go `string` that currently holds `cur`. -/
def decodeString (cur : String) : Json → Option String
  | .str s => some s
  | .null => some cur
  | _ => none

/-- Decoding a JSON value into a Go `bool` that currently holds `cur`. -/
def decodeBool (cur : Bool) : Json → Option Bool
  | .bool b => some b
  | .null => some cur
  | _ => none

/-- Decoding the members of an object, in order, into a `Message` that
currently holds `cur`. -/
def decodeMessageFields (cur : Message) : List (String × Json) → Option Message
  | [] => some cur
  | (k, v) :: rest =>
    if foldName k = foldName "role" then
      match decodeString cur.Role v with
      | some s => decodeMessageFields { cur with Role := s } rest
      | none => none
    else if foldName k = foldName "content" then
      match decodeString cur.Content v with
      | some s => decodeMessageFields { cur with Content := s } rest
      | none => none
    else decodeMessageFields cur rest

/-- Decoding a JSON value into a `Message` that currently holds `cur`. -/
def decodeMessage (cur : Message) : Json → Option Message
  | .obj members => decodeMessageFields cur members
  | .null => some cur
  | _ => none

/-- Decoding the elements of a JSON array into a slice of `Message`:
element `i` is decoded into slot `i` of the backing array (`v.Index(i)`),
which holds an earlier value when the slice had one and the zero value
otherwise. -/
def decodeElems : List Message → List Json → Option (List Message)
  | _, [] => some []
  | backing, e :: es =>
    match decodeMessage (backing.headD Message.zero) e with
    | some m =>
      match decodeElems backing.tail es with
      | some ms => some (m :: ms)
      | none => none
    | none => none

/-- Decoding a JSON value into a `[]Message` with elements `cur` and with
`spare` in the backing array past its length.  `null` and the empty array
give a fresh slice; a non-empty array is decoded in place and what it does
not overwrite stays in the backing array. -/
def decodeMessages (cur spare : List Message) : Json → Option (List Message × List Message)
  | .null => some ([], [])
  | .arr [] => some ([], [])
  | .arr (e :: es) =>
    match decodeElems (cur ++ spare) (e :: es) with
    | some ms => some (ms, (cur ++ spare).drop (e :: es).length)
    | none => none
  | _ => none

/-- Decoding the members of an object, in order, into a `ChatRequest` that
currently holds `cur` (with `spare` behind its `Messages`). -/
def decodeChatRequestFields (cur : ChatRequest) (spare : List Message) :
    List (String × Json) → Option ChatRequest
  | [] => some cur
  | (k, v) :: rest =>
    if foldName k = foldName "model" then
      match decodeString cur.Model v with
      | some s => decodeChatRequestFields { cur with Model := s } spare rest
      | none => none
    else if foldName k = foldName "messages" then
      match decodeMessages cur.Messages spare v with
      | some (ms, sp) => decodeChatRequestFields { cur with Messages := ms } sp rest
      | none => none
    else if foldName k = foldName "stream" then
      match decodeBool cur.Stream v with
      | some b => decodeChatRequestFields { cur with Stream := b } spare rest
      | none => none
    else decodeChatRequestFields cur spare rest

/-- Decoding a JSON value into a zero `ChatRequest`. -/
def decodeChatRequest : Json → Option ChatRequest
  | .obj members => decodeChatRequestFields ChatRequest.zero [] members
  | .null => some ChatRequest.zero
  | _ => none

/-- Decoding the members of an object, in order, into a `ChatResponse`
that currently holds `cur`. -/
def decodeChatResponseFields (cur : ChatResponse) : List (String × Json) → Option ChatResponse
  | [] => some cur
  | (k, v) :: rest =>
    if foldName k = foldName "model" then
      match decodeString cur.Model v with
      | some s => decodeChatResponseFields { cur with Model := s } rest
      | none => none
    else if foldName k = foldName "created_at" then
      match decodeString cur.CreatedAt v with
      | some s => decodeChatResponseFields { cur with CreatedAt := s } rest
      | none => none
    else if foldName k = foldName "done" then
      match decodeBool cur.Done v with
      | some b => decodeChatResponseFields { cur with Done := b } rest
      | none => none
    else if foldName k = foldName "message" then
      match decodeMessage cur.Message v with
      | some m => decodeChatResponseFields { cur with Message := m } rest
      | none => none
    else decodeChatResponseFields cur rest

/-- Decoding a JSON value into a zero `ChatResponse`. -/
def decodeChatResponse : Json → Option ChatResponse
  | .obj members => decodeChatResponseFields ChatResponse.zero members
  | .null => some ChatResponse.zero
  | _ => none

/-- Go: `json.NewDecoder(r.Body).Decode(&chatReq)` on a fresh `chatReq`;
`none` is `err != nil`. -/
def jsonDecodeChatRequest (body : Option Json) : Option ChatRequest :=
  match body with
  | some v => decodeChatRequest v
  | none => none

/-- Go: `json.NewDecoder(resp.Body).Decode(&chatResp)` on a fresh `chatResp`;
`none` is `err != nil`. -/
def jsonDecodeChatResponse (body : Option Json) : Option ChatResponse :=
  match body with
  | some v => decodeChatResponse v
  | none => none

/-! ## encoding/json: encoding -/

/-- The JSON object written for a `Message`. -/
def Message.toJson (m : Message) : Json :=
  .obj [("role", .str m.Role), ("content", .str m.Content)]

/-- The JSON object written for a `ChatRequest` with at least one message
(`handleChat` marshals no other). -/
def ChatRequest.toJson (c : ChatRequest) : Json :=
  .obj [("model", .str c.Model),
        ("messages", .arr (c.Messages.map Message.toJson)),
        ("stream", .bool c.Stream)]

/-- The JSON object written for a `ChatResponse`. -/
def ChatResponse.toJson (c : ChatResponse) : Json :=
  .obj [("model", .str c.Model),
        ("created_at", .str c.CreatedAt),
        ("done", .bool c.Done),
        ("message", c.Message.toJson)]

/-- Go: `json.Marshal(chatReq)`; strings, booleans and slices of them never
fail to marshal. -/
def jsonMarshal (c : ChatRequest) : Except String Json := .ok c.toJson

/-! ## The request, the environment and the backend -/

/-- The header of the inbound request: canonical key and value, in order. -/
abbrev Header := List (String × String)

/-- Go: `Header.Get(key)`: the first value under `key`, or `""`. -/
def Header.Get : Header → String → String
  | [], _ => ""
  | (k, v) :: rest, key => if k = key then v else Header.Get rest key

/-- What `handleChat` reads of `*http.Request`. -/
structure Request where
  RemoteAddr : String
  Header : Header
  Body : Option Json

/-- Go: `ctx.Err()` when it is not nil. -/
inductive CtxError where
  | DeadlineExceeded
  | Canceled
  deriving DecidableEq, Repr

/-- The request handed to `client.Do`. -/
structure OutboundRequest where
  Method : String
  URL : String
  ContentType : String
  Body : Json
  /-- Timeout of the context of the call, in seconds. -/
  TimeoutSeconds : Nat

/-- The outcome of `client.Do(req)`: a transport error, together with the
value of `ctx.Err()` read right after it, or a response with its status
code and body (`none` when no JSON value can be read from the body). -/
inductive DoResult where
  | err (ctxErr : Option CtxError)
  | resp (statusCode : Nat) (body : Option Json)

/-- Go: `os.Getenv`. -/
abbrev Env := String → String

/-! ## Effects -/

/-- A call on the `http.ResponseWriter`. -/
inductive WriterCall where
  /-- Go: `http.Error(w, msg, code)`. -/
  | error (msg : String) (code : Nat)
  /-- Go: `w.Header().Set(key, value)`. -/
  | setHeader (key value : String)
  /-- Go: `json.NewEncoder(w).Encode(v)`. -/
  | encode (v : ChatResponse)
  deriving DecidableEq, Repr

/-- One effect of a run of the handler. -/
inductive Event where
  /-- Go: `log.Printf` and `log.Println`, with the line printed. -/
  | log (line : String)
  | writer (call : WriterCall)
  /-- Go: `client.Do(req)`. -/
  | send (req : OutboundRequest)
  /-- Go: the deferred `resp.Body.Close()`. -/
  | closeBody
  /-- Go: the deferred `cancel()` of the timeout context. -/
  | cancel

/-- Go `%v` of a `Message`. -/
def fmtMessage (m : Message) : String :=
  "\x7b" ++ m.Role ++ " " ++ m.Content ++ "\x7d"

/-- Go `%v` of a `[]Message`. -/
def fmtMessages (ms : List Message) : String :=
  "[" ++ " ".intercalate (ms.map fmtMessage) ++ "]"

/-- Go `%v` of a `bool`. -/
def fmtBool (b : Bool) : String := if b then "true" else "false"

/-- Go: `http.StatusUnauthorized`. -/
def StatusUnauthorized : Nat := 401

/-- Go: `http.StatusBadRequest`. -/
def StatusBadRequest : Nat := 400

/-- Go: `http.StatusInternalServerError`. -/
def StatusInternalServerError : Nat := 500

/-- Go: `http.StatusGatewayTimeout`. -/
def StatusGatewayTimeout : Nat := 504

/-- Go: `http.StatusOK`, the status of a response written without a call
of `WriteHeader`. -/
def StatusOK : Nat := 200

/-- Go: `ollamaURL`. -/
def ollamaURL : String := "http://localhost:11434/api/chat"

/-! ## handleChat (main.go, lines 55-118) -/

/-- The trace of effects of `handleChat(w, r)`.  The two deferred calls run
when the function returns, last deferred first. -/
def handleChat (env : Env) (backend : OutboundRequest → DoResult) (r : Request) : List Event :=
  let clientIP := r.RemoteAddr
  .log ("Received request from " ++ clientIP ++ " on /api/chat") ::
  (let apiKey := r.Header.Get "Authorization"
   if apiKey ≠ "Bearer " ++ env "API_KEY" then
     [.writer (.error "Unauthorized" StatusUnauthorized),
      .log ("Unauthorized request from " ++ clientIP)]
   else
     match jsonDecodeChatRequest r.Body with
     | none =>
       [.writer (.error "Invalid request payload" StatusBadRequest),
        .log ("Invalid request payload from " ++ clientIP)]
     | some chatReq =>
       if chatReq.Model = "" ∨ chatReq.Messages.length = 0 then
         [.writer (.error "Missing required fields" StatusBadRequest),
          .log ("Missing required fields in request from " ++ clientIP)]
       else
         .log ("Request sent: Model: " ++ chatReq.Model ++ ", Messages: "
                 ++ fmtMessages chatReq.Messages) ::
         (match jsonMarshal chatReq with
          | .error _ =>
            [.writer (.error "Error creating request" StatusInternalServerError),
             .log ("Error creating request body from " ++ clientIP),
             .cancel]
          | .ok reqBody =>
            let req : OutboundRequest :=
              { Method := "POST", URL := ollamaURL, ContentType := "application/json",
                Body := reqBody, TimeoutSeconds := 90 }
            .send req ::
            (match backend req with
             | .err ctxErr =>
               if ctxErr = some CtxError.DeadlineExceeded then
                 [.writer (.error "Request timed out" StatusGatewayTimeout),
                  .log ("Request timed out from " ++ clientIP),
                  .cancel]
               else
                 [.writer (.error "Error contacting Ollama API" StatusInternalServerError),
                  .log ("Error contacting Ollama API from " ++ clientIP),
                  .cancel]
             | .resp _ body =>
               match jsonDecodeChatResponse body with
               | none =>
                 [.writer (.error "Error reading Ollama response" StatusInternalServerError),
                  .log ("Error reading Ollama response from " ++ clientIP),
                  .closeBody,
                  .cancel]
               | some chatResp =>
                 [.log ("Response received from " ++ clientIP ++ ": Model: " ++ chatResp.Model
                          ++ ", Message: " ++ fmtMessage chatResp.Message
                          ++ ", Done: " ++ fmtBool chatResp.Done),
                  .writer (.setHeader "Content-Type" "application/json"),
                  .writer (.encode chatResp),
                  .closeBody,
                  .cancel])))

/-! ## Observations on a trace -/

/-- The calls made on the response writer, in order. -/
def writerCalls : List Event → List WriterCall
  | [] => []
  | .writer c :: rest => c :: writerCalls rest
  | _ :: rest => writerCalls rest

/-- The outbound calls made to the backend, in order. -/
def outboundCalls : List Event → List OutboundRequest
  | [] => []
  | .send q :: rest => q :: outboundCalls rest
  | _ :: rest => outboundCalls rest

/-- What is written to the body of the response. -/
inductive BodyPart where
  /-- The text `msg` on a line of its own, as `http.Error` prints it. -/
  | text (msg : String)
  /-- The JSON text of a value on a line of its own, as `Encode` prints it. -/
  | json (v : Json)

/-- The status of the response: the code of the first call that writes
(`http.Error` sends its code, a first write without one sends 200), and 200
when the handler returns without writing. -/
def statusOf : List WriterCall → Nat
  | [] => StatusOK
  | .error _ code :: _ => code
  | .setHeader _ _ :: rest => statusOf rest
  | .encode _ :: _ => StatusOK

/-- The body of the response: everything written, in order. -/
def bodyOf : List WriterCall → List BodyPart
  | [] => []
  | .error msg _ :: rest => .text msg :: bodyOf rest
  | .setHeader _ _ :: rest => bodyOf rest
  | .encode v :: rest => .json v.toJson :: bodyOf rest

/-- The status a caller sees for a run. -/
def responseStatus (t : List Event) : Nat := statusOf (writerCalls t)

/-- The body a caller sees for a run. -/
def responseBody (t : List Event) : List BodyPart := bodyOf (writerCalls t)

/-- The request `handleChat` hands to `client.Do` for a validated
`chatReq`: a POST to `ollamaURL` with the JSON content type, the marshalled
request as body and the 90 second timeout of its context. -/
def outboundFor (chatReq : ChatRequest) : OutboundRequest :=
  { Method := "POST", URL := ollamaURL, ContentType := "application/json",
    Body := chatReq.toJson, TimeoutSeconds := 90 }

/-! ## The terminal outcomes named by the specification -/

/-- The terminal states of the per-request state machine of the
specification (section 4.3) and of its error taxonomy (section 7). -/
inductive Terminal where
  | Completed
  | Unauthorized
  | BadRequest
  | InternalError
  | BackendUnreachable
  | GatewayTimeout
  deriving DecidableEq, Repr

/-- The status the specification gives each terminal outcome (section 6). -/
def Terminal.status : Terminal → Nat
  | .Completed => 200
  | .Unauthorized => 401
  | .BadRequest => 400
  | .InternalError => 500
  | .BackendUnreachable => 500
  | .GatewayTimeout => 504

/-- The calls on the response writer that realise a terminal outcome,
after the response table of the specification (section 6): one `http.Error`
with the text and status of the row, or, for `Completed`, the content type
followed by the encoded `ChatResponse`. -/
def Terminal.Reached (t : Terminal) (w : List WriterCall) : Prop :=
  match t with
  | .Completed => ∃ resp, w = [.setHeader "Content-Type" "application/json", .encode resp]
  | .Unauthorized => w = [.error "Unauthorized" 401]
  | .BadRequest =>
    w = [.error "Invalid request payload" 400] ∨ w = [.error "Missing required fields" 400]
  | .InternalError =>
    w = [.error "Error creating request" 500] ∨ w = [.error "Error reading Ollama response" 500]
  | .BackendUnreachable => w = [.error "Error contacting Ollama API" 500]
  | .GatewayTimeout => w = [.error "Request timed out" 504]

/-! ## Concrete inputs (the scenarios of the specification) -/

/-- An environment whose `API_KEY` is `s3cret`. -/
def exampleEnv : Env := fun k => if k = "API_KEY" then "s3cret" else ""

/-- An environment with no `API_KEY` (the empty secret). -/
def emptyEnv : Env := fun _ => ""

/-- The request body of Scenario A. -/
def scenarioBody : Json :=
  .obj [("model", .str "llama2"),
        ("messages", .arr [.obj [("role", .str "user"), ("content", .str "hi")]])]

/-- The `ChatRequest` Scenario A decodes into. -/
def scenarioChatRequest : ChatRequest := ⟨"llama2", [⟨"user", "hi"⟩], false⟩

/-- Scenario A: correct credential, complete body. -/
def scenarioRequest : Request :=
  ⟨"10.0.0.7:4711", [("Content-Type", "application/json"), ("Authorization", "Bearer s3cret")],
   some scenarioBody⟩

/-- Scenario B: the request of Scenario A with a wrong credential. -/
def wrongKeyRequest : Request :=
  ⟨"10.0.0.7:4711", [("Authorization", "Bearer guess")], some scenarioBody⟩

/-- A request with the correct credential whose messages field is `null`. -/
def nullMessagesRequest : Request :=
  ⟨"10.0.0.7:4711", [("Authorization", "Bearer s3cret")],
   some (.obj [("model", .str "llama2"), ("messages", .null)])⟩

/-- A request with the correct credential whose body is not JSON. -/
def malformedRequest : Request :=
  ⟨"10.0.0.7:4711", [("Authorization", "Bearer s3cret")], none⟩

/-- A request with the correct credential whose model is a number. -/
def wrongTypeRequest : Request :=
  ⟨"10.0.0.7:4711", [("Authorization", "Bearer s3cret")],
   some (.obj [("model", .num 7 0),
               ("messages", .arr [.obj [("role", .str "user"), ("content", .str "hi")]])])⟩

/-- The backend response body of Scenario A. -/
def scenarioReply : Json :=
  .obj [("model", .str "llama2"), ("created_at", .str "t0"), ("done", .bool true),
        ("message", .obj [("role", .str "assistant"), ("content", .str "hello")])]

/-- The backend of Scenario A: status 200 and the reply above. -/
def scenarioBackend : OutboundRequest → DoResult := fun _ => .resp 200 (some scenarioReply)

/-- A backend that does not answer before the deadline (Scenario D). -/
def silentBackend : OutboundRequest → DoResult :=
  fun _ => .err (some CtxError.DeadlineExceeded)

/-- A backend reply without `created_at` and with a field that
`ChatResponse` does not have. -/
def meteredReply : Json :=
  .obj [("model", .str "llama2"),
        ("message", .obj [("role", .str "assistant"), ("content", .str "hello")]),
        ("done", .bool true),
        ("total_duration", .num 5 0)]

/-- A backend that answers 200 with `meteredReply`. -/
def meteredBackend : OutboundRequest → DoResult := fun _ => .resp 200 (some meteredReply)

/-- A backend that answers 503 with the reply of Scenario A. -/
def failingStatusBackend : OutboundRequest → DoResult :=
  fun _ => .resp 503 (some scenarioReply)

/-- A backend that answers with a body that is not JSON (Scenario E). -/
def garbledBackend : OutboundRequest → DoResult := fun _ => .resp 200 none

/-! ## Authentication -/

/-- A header value that differs from the expected credential ends the run
with the 401 response and nothing else. -/
theorem handleChat_of_bad_credential (env : Env) (backend : OutboundRequest → DoResult)
    (r : Request) (h : r.Header.Get "Authorization" ≠ "Bearer " ++ env "API_KEY") :
    handleChat env backend r =
      [.log ("Received request from " ++ r.RemoteAddr ++ " on /api/chat"),
       .writer (.error "Unauthorized" 401),
       .log ("Unauthorized request from " ++ r.RemoteAddr)] := by
  simp [handleChat, h, StatusUnauthorized]

/-- C1: a request whose Authorization header value is not exactly
`"Bearer " ++ API_KEY` gets, whatever its body (well-formed or not) and
whatever the backend would do, the single response `http.Error(w,
"Unauthorized", 401)`: status 401, body text `Unauthorized`, and no
outbound call appears in the trace. -/
theorem unauthorized_is_401_without_backend_call (env : Env)
    (backend : OutboundRequest → DoResult) (r : Request)
    (h : r.Header.Get "Authorization" ≠ "Bearer " ++ env "API_KEY") :
    writerCalls (handleChat env backend r) = [.error "Unauthorized" 401] ∧
    responseStatus (handleChat env backend r) = 401 ∧
    responseBody (handleChat env backend r) = [.text "Unauthorized"] ∧
    (outboundCalls (handleChat env backend r)).length = 0 := by
  rw [handleChat_of_bad_credential env backend r h]
  simp [writerCalls, outboundCalls, responseStatus, responseBody, statusOf, bodyOf]

/-- Scenario B: the wrong credential is answered 401 and the backend is
not called. -/
theorem unauthorized_is_401_without_backend_call_witness :
    wrongKeyRequest.Header.Get "Authorization" ≠ "Bearer " ++ exampleEnv "API_KEY" ∧
    responseStatus (handleChat exampleEnv scenarioBackend wrongKeyRequest) = 401 ∧
    (outboundCalls (handleChat exampleEnv scenarioBackend wrongKeyRequest)).length = 0 :=
  have h := unauthorized_is_401_without_backend_call exampleEnv scenarioBackend wrongKeyRequest
    (by decide)
  ⟨by decide, h.2.1, h.2.2.2⟩

/-! ## Validation -/

/-- A correct credential whose body does not decode ends the run with the
400 response for an invalid payload. -/
theorem handleChat_of_undecodable (env : Env) (backend : OutboundRequest → DoResult)
    (r : Request) (hauth : r.Header.Get "Authorization" = "Bearer " ++ env "API_KEY")
    (hdec : jsonDecodeChatRequest r.Body = none) :
    handleChat env backend r =
      [.log ("Received request from " ++ r.RemoteAddr ++ " on /api/chat"),
       .writer (.error "Invalid request payload" 400),
       .log ("Invalid request payload from " ++ r.RemoteAddr)] := by
  simp [handleChat, hauth, hdec, StatusBadRequest]

/-- A correct credential whose body decodes to an incomplete request ends
the run with the 400 response for missing fields. -/
theorem handleChat_of_incomplete (env : Env) (backend : OutboundRequest → DoResult)
    (r : Request) (chatReq : ChatRequest)
    (hauth : r.Header.Get "Authorization" = "Bearer " ++ env "API_KEY")
    (hdec : jsonDecodeChatRequest r.Body = some chatReq)
    (hmiss : chatReq.Model = "" ∨ chatReq.Messages.length = 0) :
    handleChat env backend r =
      [.log ("Received request from " ++ r.RemoteAddr ++ " on /api/chat"),
       .writer (.error "Missing required fields" 400),
       .log ("Missing required fields in request from " ++ r.RemoteAddr)] := by
  have hmiss2 : chatReq.Model = "" ∨ chatReq.Messages.length = 0 := hmiss
  simp only [handleChat, hauth, hdec, StatusBadRequest]
  rw [if_neg (by simp), if_pos hmiss2]

/-- An object in which every member named `messages` is `null` (in
particular one with no such member) leaves `Messages` empty. -/
theorem decodeChatRequestFields_messages_nil (members : List (String × Json)) :
    ∀ (cur : ChatRequest) (spare : List Message) (out : ChatRequest),
      (∀ kv ∈ members, foldName kv.1 = foldName "messages" → kv.2 = Json.null) →
      cur.Messages = [] →
      decodeChatRequestFields cur spare members = some out → out.Messages = [] := by
  induction members with
  | nil =>
    intro cur spare out _ hcur h
    simp only [decodeChatRequestFields, Option.some.injEq] at h
    rw [← h]; exact hcur
  | cons kv rest ih =>
    obtain ⟨k, v⟩ := kv
    intro cur spare out hnull hcur h
    have hrest : ∀ kv ∈ rest, foldName kv.1 = foldName "messages" → kv.2 = Json.null :=
      fun kv hkv => hnull kv (List.mem_cons_of_mem _ hkv)
    simp only [decodeChatRequestFields] at h
    split_ifs at h with h1 h2 h3
    · cases hs : decodeString cur.Model v with
      | none => simp [hs] at h
      | some s =>
        simp only [hs] at h
        exact ih _ _ _ hrest (by exact hcur) h
    · have hv : v = Json.null := hnull (k, v) (List.mem_cons_self _ _) h2
      subst hv
      simp only [decodeMessages] at h
      exact ih _ _ _ hrest rfl h
    · cases hb : decodeBool cur.Stream v with
      | none => simp [hb] at h
      | some b =>
        simp only [hb] at h
        exact ih _ _ _ hrest (by exact hcur) h
    · exact ih _ _ _ hrest hcur h

/-- C2: a request with the correct credential whose body decodes into a
ChatRequest with an empty model or with no message (which covers a body in
which the messages field is absent or null) gets the single response
`http.Error(w, "Missing required fields", 400)`: status 400, that body
text, and no outbound call appears in the trace. -/
theorem incomplete_is_400_without_backend_call (env : Env)
    (backend : OutboundRequest → DoResult) (r : Request) (chatReq : ChatRequest)
    (hauth : r.Header.Get "Authorization" = "Bearer " ++ env "API_KEY")
    (hdec : jsonDecodeChatRequest r.Body = some chatReq)
    (hmiss : chatReq.Model = "" ∨ chatReq.Messages.length = 0 ∨
      ∃ members, r.Body = some (Json.obj members) ∧
        ∀ kv ∈ members, foldName kv.1 = foldName "messages" → kv.2 = Json.null) :
    writerCalls (handleChat env backend r) = [.error "Missing required fields" 400] ∧
    responseStatus (handleChat env backend r) = 400 ∧
    responseBody (handleChat env backend r) = [.text "Missing required fields"] ∧
    (outboundCalls (handleChat env backend r)).length = 0 := by
  have hmiss2 : chatReq.Model = "" ∨ chatReq.Messages.length = 0 := by
    rcases hmiss with h | h | ⟨members, hbody, hnull⟩
    · exact Or.inl h
    · exact Or.inr h
    · right
      rw [hbody] at hdec
      simp only [jsonDecodeChatRequest, decodeChatRequest] at hdec
      rw [decodeChatRequestFields_messages_nil members _ _ _ hnull rfl hdec]
      rfl
  rw [handleChat_of_incomplete env backend r chatReq hauth hdec hmiss2]
  simp [writerCalls, outboundCalls, responseStatus, responseBody, statusOf, bodyOf]

/-- A body with `"messages": null` is answered 400 and the backend is not
called. -/
theorem incomplete_is_400_without_backend_call_witness :
    nullMessagesRequest.Header.Get "Authorization" = "Bearer " ++ exampleEnv "API_KEY" ∧
    jsonDecodeChatRequest nullMessagesRequest.Body = some ⟨"llama2", [], false⟩ ∧
    responseStatus (handleChat exampleEnv scenarioBackend nullMessagesRequest) = 400 ∧
    (outboundCalls (handleChat exampleEnv scenarioBackend nullMessagesRequest)).length = 0 :=
  have h := incomplete_is_400_without_backend_call exampleEnv scenarioBackend
    nullMessagesRequest ⟨"llama2", [], false⟩ (by decide) (by decide)
    (Or.inr (Or.inr ⟨_, rfl, by simp; decide⟩))
  ⟨by decide, by decide, h.2.1, h.2.2.2⟩

/-! ## Forwarding: the trace for each outcome of the outbound call -/

/-- The deadline of the context has passed when `client.Do` fails. -/
theorem handleChat_of_timeout (env : Env) (backend : OutboundRequest → DoResult)
    (r : Request) (chatReq : ChatRequest)
    (hauth : r.Header.Get "Authorization" = "Bearer " ++ env "API_KEY")
    (hdec : jsonDecodeChatRequest r.Body = some chatReq)
    (hmodel : chatReq.Model ≠ "") (hmsgs : chatReq.Messages.length ≠ 0)
    (hdo : backend (outboundFor chatReq) = .err (some CtxError.DeadlineExceeded)) :
    handleChat env backend r =
      [.log ("Received request from " ++ r.RemoteAddr ++ " on /api/chat"),
       .log ("Request sent: Model: " ++ chatReq.Model ++ ", Messages: "
               ++ fmtMessages chatReq.Messages),
       .send (outboundFor chatReq),
       .writer (.error "Request timed out" 504),
       .log ("Request timed out from " ++ r.RemoteAddr),
       .cancel] := by
  have hv : ¬ (chatReq.Model = "" ∨ chatReq.Messages.length = 0) := by
    rintro (h | h)
    · exact hmodel h
    · exact hmsgs h
  have hdo2 := hdo
  simp only [outboundFor] at hdo2
  simp only [handleChat, hauth, hdec, jsonMarshal, hdo2, StatusGatewayTimeout]
  rw [if_neg (by simp), if_neg hv]
  simp [outboundFor]

/-- The call `client.Do` fails while the deadline has not passed. -/
theorem handleChat_of_transport_failure (env : Env) (backend : OutboundRequest → DoResult)
    (r : Request) (chatReq : ChatRequest) (ctxErr : Option CtxError)
    (hauth : r.Header.Get "Authorization" = "Bearer " ++ env "API_KEY")
    (hdec : jsonDecodeChatRequest r.Body = some chatReq)
    (hmodel : chatReq.Model ≠ "") (hmsgs : chatReq.Messages.length ≠ 0)
    (hdo : backend (outboundFor chatReq) = .err ctxErr)
    (hctx : ctxErr ≠ some CtxError.DeadlineExceeded) :
    handleChat env backend r =
      [.log ("Received request from " ++ r.RemoteAddr ++ " on /api/chat"),
       .log ("Request sent: Model: " ++ chatReq.Model ++ ", Messages: "
               ++ fmtMessages chatReq.Messages),
       .send (outboundFor chatReq),
       .writer (.error "Error contacting Ollama API" 500),
       .log ("Error contacting Ollama API from " ++ r.RemoteAddr),
       .cancel] := by
  have hv : ¬ (chatReq.Model = "" ∨ chatReq.Messages.length = 0) := by
    rintro (h | h)
    · exact hmodel h
    · exact hmsgs h
  have hdo2 := hdo
  simp only [outboundFor] at hdo2
  simp only [handleChat, hauth, hdec, jsonMarshal, hdo2, StatusInternalServerError]
  rw [if_neg (by simp), if_neg hv, if_neg hctx]
  simp [outboundFor]

/-- The backend answers with a body that does not decode. -/
theorem handleChat_of_unreadable_reply (env : Env) (backend : OutboundRequest → DoResult)
    (r : Request) (chatReq : ChatRequest) (statusCode : Nat) (body : Option Json)
    (hauth : r.Header.Get "Authorization" = "Bearer " ++ env "API_KEY")
    (hdec : jsonDecodeChatRequest r.Body = some chatReq)
    (hmodel : chatReq.Model ≠ "") (hmsgs : chatReq.Messages.length ≠ 0)
    (hdo : backend (outboundFor chatReq) = .resp statusCode body)
    (hbad : jsonDecodeChatResponse body = none) :
    handleChat env backend r =
      [.log ("Received request from " ++ r.RemoteAddr ++ " on /api/chat"),
       .log ("Request sent: Model: " ++ chatReq.Model ++ ", Messages: "
               ++ fmtMessages chatReq.Messages),
       .send (outboundFor chatReq),
       .writer (.error "Error reading Ollama response" 500),
       .log ("Error reading Ollama response from " ++ r.RemoteAddr),
       .closeBody,
       .cancel] := by
  have hv : ¬ (chatReq.Model = "" ∨ chatReq.Messages.length = 0) := by
    rintro (h | h)
    · exact hmodel h
    · exact hmsgs h
  have hdo2 := hdo
  simp only [outboundFor] at hdo2
  simp only [handleChat, hauth, hdec, jsonMarshal, hdo2, hbad, StatusInternalServerError]
  rw [if_neg (by simp), if_neg hv]
  simp [outboundFor]

/-- The backend answers with a body that decodes into `chatResp`. -/
theorem handleChat_of_reply (env : Env) (backend : OutboundRequest → DoResult)
    (r : Request) (chatReq : ChatRequest) (statusCode : Nat) (body : Option Json)
    (chatResp : ChatResponse)
    (hauth : r.Header.Get "Authorization" = "Bearer " ++ env "API_KEY")
    (hdec : jsonDecodeChatRequest r.Body = some chatReq)
    (hmodel : chatReq.Model ≠ "") (hmsgs : chatReq.Messages.length ≠ 0)
    (hdo : backend (outboundFor chatReq) = .resp statusCode body)
    (hresp : jsonDecodeChatResponse body = some chatResp) :
    handleChat env backend r =
      [.log ("Received request from " ++ r.RemoteAddr ++ " on /api/chat"),
       .log ("Request sent: Model: " ++ chatReq.Model ++ ", Messages: "
               ++ fmtMessages chatReq.Messages),
       .send (outboundFor chatReq),
       .log ("Response received from " ++ r.RemoteAddr ++ ": Model: " ++ chatResp.Model
               ++ ", Message: " ++ fmtMessage chatResp.Message
               ++ ", Done: " ++ fmtBool chatResp.Done),
       .writer (.setHeader "Content-Type" "application/json"),
       .writer (.encode chatResp),
       .closeBody,
       .cancel] := by
  have hv : ¬ (chatReq.Model = "" ∨ chatReq.Messages.length = 0) := by
    rintro (h | h)
    · exact hmodel h
    · exact hmsgs h
  have hdo2 := hdo
  simp only [outboundFor] at hdo2
  simp only [handleChat, hauth, hdec, jsonMarshal, hdo2, hresp]
  rw [if_neg (by simp), if_neg hv]
  simp [outboundFor]

/-! ## Every run with a correct credential, by cases -/

/-- The runs of `handleChat` on a request with the correct credential:
the body does not decode; it decodes to an incomplete request; or the
request is sent once and the run ends according to the outcome of the call. -/
theorem authorized_run_cases (env : Env) (backend : OutboundRequest → DoResult) (r : Request)
    (hauth : r.Header.Get "Authorization" = "Bearer " ++ env "API_KEY") :
    (jsonDecodeChatRequest r.Body = none ∧
      writerCalls (handleChat env backend r) = [.error "Invalid request payload" 400] ∧
      outboundCalls (handleChat env backend r) = []) ∨
    (∃ c, jsonDecodeChatRequest r.Body = some c ∧ (c.Model = "" ∨ c.Messages.length = 0) ∧
      writerCalls (handleChat env backend r) = [.error "Missing required fields" 400] ∧
      outboundCalls (handleChat env backend r) = []) ∨
    (∃ c, jsonDecodeChatRequest r.Body = some c ∧ c.Model ≠ "" ∧ c.Messages.length ≠ 0 ∧
      outboundCalls (handleChat env backend r) = [outboundFor c] ∧
      ((backend (outboundFor c) = .err (some CtxError.DeadlineExceeded) ∧
          writerCalls (handleChat env backend r) = [.error "Request timed out" 504]) ∨
       (∃ e, backend (outboundFor c) = .err e ∧ e ≠ some CtxError.DeadlineExceeded ∧
          writerCalls (handleChat env backend r) = [.error "Error contacting Ollama API" 500]) ∨
       (∃ sc body, backend (outboundFor c) = .resp sc body ∧
          jsonDecodeChatResponse body = none ∧
          writerCalls (handleChat env backend r)
            = [.error "Error reading Ollama response" 500]) ∨
       (∃ sc body resp, backend (outboundFor c) = .resp sc body ∧
          jsonDecodeChatResponse body = some resp ∧
          writerCalls (handleChat env backend r)
            = [.setHeader "Content-Type" "application/json", .encode resp]))) := by
  cases hdec : jsonDecodeChatRequest r.Body with
  | none =>
    left
    rw [handleChat_of_undecodable env backend r hauth hdec]
    simp [writerCalls, outboundCalls]
  | some c =>
    right
    by_cases hmiss : c.Model = "" ∨ c.Messages.length = 0
    · left
      refine ⟨c, rfl, hmiss, ?_⟩
      rw [handleChat_of_incomplete env backend r c hauth hdec hmiss]
      simp [writerCalls, outboundCalls]
    · right
      have hmodel : c.Model ≠ "" := fun h => hmiss (Or.inl h)
      have hmsgs : c.Messages.length ≠ 0 := fun h => hmiss (Or.inr h)
      refine ⟨c, rfl, hmodel, hmsgs, ?_⟩
      cases hdo : backend (outboundFor c) with
      | err e =>
        by_cases hctx : e = some CtxError.DeadlineExceeded
        · subst hctx
          rw [handleChat_of_timeout env backend r c hauth hdec hmodel hmsgs hdo]
          simp [writerCalls, outboundCalls]
        · rw [handleChat_of_transport_failure env backend r c e hauth hdec hmodel hmsgs hdo hctx]
          simp [writerCalls, outboundCalls, hctx]
      | resp sc body =>
        cases hresp : jsonDecodeChatResponse body with
        | none =>
          rw [handleChat_of_unreadable_reply env backend r c sc body hauth hdec hmodel hmsgs
            hdo hresp]
          refine ⟨by simp [outboundCalls], ?_⟩
          exact Or.inr (Or.inr (Or.inl ⟨sc, body, rfl, hresp, by simp [writerCalls]⟩))
        | some resp =>
          rw [handleChat_of_reply env backend r c sc body resp hauth hdec hmodel hmsgs
            hdo hresp]
          refine ⟨by simp [outboundCalls], ?_⟩
          exact Or.inr (Or.inr (Or.inr ⟨sc, body, resp, rfl, hresp, by simp [writerCalls]⟩))

/-! ## Encoding followed by decoding -/

/-- The field names of the three structs have pairwise distinct folded
forms, so a key selects at most one field of a struct. -/
theorem foldName_fields_distinct :
    foldName "content" ≠ foldName "role" ∧
    foldName "messages" ≠ foldName "model" ∧
    foldName "stream" ≠ foldName "model" ∧
    foldName "stream" ≠ foldName "messages" ∧
    foldName "created_at" ≠ foldName "model" ∧
    foldName "done" ≠ foldName "model" ∧
    foldName "done" ≠ foldName "created_at" ∧
    foldName "message" ≠ foldName "model" ∧
    foldName "message" ≠ foldName "created_at" ∧
    foldName "message" ≠ foldName "done" := by
  decide

/-- Decoding the object written for a `Message` gives the message back,
whatever the slot held. -/
theorem decodeMessage_toJson (cur m : Message) : decodeMessage cur m.toJson = some m := by
  have h := foldName_fields_distinct.1
  simp [decodeMessage, Message.toJson, decodeMessageFields, decodeString, h]

/-- Decoding the array written for a list of messages gives the list back. -/
theorem decodeElems_toJson (ms : List Message) :
    ∀ backing, decodeElems backing (ms.map Message.toJson) = some ms := by
  induction ms with
  | nil => intro backing; simp [decodeElems]
  | cons m rest ih =>
    intro backing
    simp [decodeElems, decodeMessage_toJson, ih]

/-- Decoding the object written for a `ChatRequest` gives the request back:
the serialization loses nothing of model, messages and stream. -/
theorem decodeChatRequest_toJson (c : ChatRequest) : decodeChatRequest c.toJson = some c := by
  obtain ⟨h1, h2, h3, h4, -⟩ := foldName_fields_distinct
  obtain ⟨model, msgs, stream⟩ := c
  cases msgs with
  | nil =>
    simp [decodeChatRequest, ChatRequest.toJson, decodeChatRequestFields, decodeString,
      decodeBool, decodeMessages, ChatRequest.zero, h2, h3, h4]
  | cons m rest =>
    have hel := decodeElems_toJson (m :: rest) []
    simp only [List.map_cons] at hel
    simp [decodeChatRequest, ChatRequest.toJson, decodeChatRequestFields, decodeString,
      decodeBool, decodeMessages, ChatRequest.zero, h2, h3, h4, hel]

/-! ## Forwarding -/

/-- C3: a request with the correct credential whose body decodes into a
ChatRequest with a non-empty model and at least one message (any roles,
contents and stream value) causes exactly one outbound call, whatever the
backend then does: a POST to the fixed backend endpoint with the JSON
content type, whose body is the serialization of the decoded request.  The
serialization carries model, messages (same order, same role and content)
and stream unchanged: decoding it gives the decoded inbound request back. -/
theorem valid_request_is_forwarded_once (env : Env) (backend : OutboundRequest → DoResult)
    (r : Request) (chatReq : ChatRequest)
    (hauth : r.Header.Get "Authorization" = "Bearer " ++ env "API_KEY")
    (hdec : jsonDecodeChatRequest r.Body = some chatReq)
    (hmodel : chatReq.Model ≠ "") (hmsgs : chatReq.Messages.length ≠ 0) :
    outboundCalls (handleChat env backend r) =
      [{ Method := "POST", URL := "http://localhost:11434/api/chat",
         ContentType := "application/json", Body := chatReq.toJson, TimeoutSeconds := 90 }] ∧
    chatReq.toJson =
      Json.obj [("model", .str chatReq.Model),
                ("messages", .arr (chatReq.Messages.map fun m =>
                   Json.obj [("role", .str m.Role), ("content", .str m.Content)])),
                ("stream", .bool chatReq.Stream)] ∧
    decodeChatRequest chatReq.toJson = some chatReq := by
  refine ⟨?_, ?_, decodeChatRequest_toJson chatReq⟩
  · rcases authorized_run_cases env backend r hauth with h | ⟨c, hc, hmiss, -⟩ | ⟨c, hc, -, -, hcalls, -⟩
    · rw [hdec] at h
      exact absurd h.1 (by simp)
    · rw [hdec] at hc
      cases hc
      rcases hmiss with h | h
      · exact absurd h hmodel
      · exact absurd h hmsgs
    · rw [hdec] at hc
      cases hc
      rw [hcalls]
      rfl
  · simp only [ChatRequest.toJson, Json.obj.injEq, List.cons.injEq, Prod.mk.injEq, true_and,
      and_true, Json.arr.injEq]
    rfl

/-- Scenario A: the request is sent once, with its model, message and
stream value. -/
theorem valid_request_is_forwarded_once_witness :
    scenarioRequest.Header.Get "Authorization" = "Bearer " ++ exampleEnv "API_KEY" ∧
    jsonDecodeChatRequest scenarioRequest.Body = some scenarioChatRequest ∧
    scenarioChatRequest.Model ≠ "" ∧ scenarioChatRequest.Messages.length ≠ 0 ∧
    outboundCalls (handleChat exampleEnv scenarioBackend scenarioRequest) =
      [⟨"POST", "http://localhost:11434/api/chat", "application/json",
        Json.obj [("model", .str "llama2"),
                  ("messages", .arr [Json.obj [("role", .str "user"), ("content", .str "hi")]]),
                  ("stream", .bool false)], 90⟩] :=
  ⟨by decide, by decide, by decide, by decide,
   (valid_request_is_forwarded_once exampleEnv scenarioBackend scenarioRequest
      scenarioChatRequest (by decide) (by decide) (by decide) (by decide)).1⟩

/-- C5: for a request with the correct credential and a complete body whose
outbound call fails at the transport level (`client.Do` returns an error):
when the context reports that its 90 second deadline was exceeded the
response is status 504 with text `Request timed out`; for any other
failure, cancellation of the inbound request context included, it is
status 500 with text `Error contacting Ollama API`.  In both cases the
trace holds exactly one outbound call, made under the 90 second timeout. -/
theorem transport_failure_is_504_or_500 (env : Env) (backend : OutboundRequest → DoResult)
    (r : Request) (chatReq : ChatRequest) (ctxErr : Option CtxError)
    (hauth : r.Header.Get "Authorization" = "Bearer " ++ env "API_KEY")
    (hdec : jsonDecodeChatRequest r.Body = some chatReq)
    (hmodel : chatReq.Model ≠ "") (hmsgs : chatReq.Messages.length ≠ 0)
    (hdo : backend (outboundFor chatReq) = .err ctxErr) :
    (ctxErr = some CtxError.DeadlineExceeded →
      writerCalls (handleChat env backend r) = [.error "Request timed out" 504] ∧
      responseStatus (handleChat env backend r) = 504 ∧
      responseBody (handleChat env backend r) = [.text "Request timed out"]) ∧
    (ctxErr ≠ some CtxError.DeadlineExceeded →
      writerCalls (handleChat env backend r) = [.error "Error contacting Ollama API" 500] ∧
      responseStatus (handleChat env backend r) = 500 ∧
      responseBody (handleChat env backend r) = [.text "Error contacting Ollama API"]) ∧
    (ctxErr = some CtxError.Canceled → responseStatus (handleChat env backend r) = 500) ∧
    (outboundCalls (handleChat env backend r)).length = 1 ∧
    (outboundCalls (handleChat env backend r)).map OutboundRequest.TimeoutSeconds = [90] := by
  by_cases hctx : ctxErr = some CtxError.DeadlineExceeded
  · subst hctx
    rw [handleChat_of_timeout env backend r chatReq hauth hdec hmodel hmsgs hdo]
    simp [writerCalls, outboundCalls, responseStatus, responseBody, statusOf, bodyOf,
      outboundFor]
  · rw [handleChat_of_transport_failure env backend r chatReq ctxErr hauth hdec hmodel hmsgs
      hdo hctx]
    simp [writerCalls, outboundCalls, responseStatus, responseBody, statusOf, bodyOf,
      outboundFor, hctx]

/-- Scenario D: the deadline passes and the caller is answered 504. -/
theorem transport_failure_is_504_or_500_witness :
    scenarioRequest.Header.Get "Authorization" = "Bearer " ++ exampleEnv "API_KEY" ∧
    jsonDecodeChatRequest scenarioRequest.Body = some scenarioChatRequest ∧
    scenarioChatRequest.Model ≠ "" ∧ scenarioChatRequest.Messages.length ≠ 0 ∧
    silentBackend (outboundFor scenarioChatRequest) = .err (some CtxError.DeadlineExceeded) ∧
    responseStatus (handleChat exampleEnv silentBackend scenarioRequest) = 504 :=
  ⟨by decide, by decide, by decide, by decide, rfl,
   ((transport_failure_is_504_or_500 exampleEnv silentBackend scenarioRequest
      scenarioChatRequest (some CtxError.DeadlineExceeded) (by decide) (by decide)
      (by decide) (by decide) rfl).1 rfl).2.1⟩

/-- C6: for a request with the correct credential and a complete body whose
outbound call returns a response (any status code) with a body that does
not decode into ChatResponse, the response is status 500 with text
`Error reading Ollama response`; the body written is neither the timeout
text nor the transport-failure text, and exactly one outbound call was made. -/
theorem undecodable_reply_is_500 (env : Env) (backend : OutboundRequest → DoResult)
    (r : Request) (chatReq : ChatRequest) (statusCode : Nat) (body : Option Json)
    (hauth : r.Header.Get "Authorization" = "Bearer " ++ env "API_KEY")
    (hdec : jsonDecodeChatRequest r.Body = some chatReq)
    (hmodel : chatReq.Model ≠ "") (hmsgs : chatReq.Messages.length ≠ 0)
    (hdo : backend (outboundFor chatReq) = .resp statusCode body)
    (hbad : jsonDecodeChatResponse body = none) :
    writerCalls (handleChat env backend r) = [.error "Error reading Ollama response" 500] ∧
    responseStatus (handleChat env backend r) = 500 ∧
    responseBody (handleChat env backend r) = [.text "Error reading Ollama response"] ∧
    responseBody (handleChat env backend r) ≠ [.text "Request timed out"] ∧
    responseBody (handleChat env backend r) ≠ [.text "Error contacting Ollama API"] ∧
    (outboundCalls (handleChat env backend r)).length = 1 := by
  rw [handleChat_of_unreadable_reply env backend r chatReq statusCode body hauth hdec hmodel
    hmsgs hdo hbad]
  simp [writerCalls, outboundCalls, responseStatus, responseBody, statusOf, bodyOf]

/-- Scenario E: a reply that is not JSON is answered 500 with the text for
an unreadable reply. -/
theorem undecodable_reply_is_500_witness :
    scenarioRequest.Header.Get "Authorization" = "Bearer " ++ exampleEnv "API_KEY" ∧
    jsonDecodeChatRequest scenarioRequest.Body = some scenarioChatRequest ∧
    scenarioChatRequest.Model ≠ "" ∧ scenarioChatRequest.Messages.length ≠ 0 ∧
    garbledBackend (outboundFor scenarioChatRequest) = .resp 200 none ∧
    jsonDecodeChatResponse none = none ∧
    responseStatus (handleChat exampleEnv garbledBackend scenarioRequest) = 500 ∧
    responseBody (handleChat exampleEnv garbledBackend scenarioRequest)
      = [.text "Error reading Ollama response"] :=
  have h := undecodable_reply_is_500 exampleEnv garbledBackend scenarioRequest
    scenarioChatRequest 200 none (by decide) (by decide) (by decide) (by decide) rfl rfl
  ⟨by decide, by decide, by decide, by decide, rfl, rfl, h.2.1, h.2.2.1⟩

/-- C7: for a request with the correct credential, a body that fails to
decode into ChatRequest gets the single response `http.Error(w, "Invalid
request payload", 400)` and no outbound call is made; and the text
`Missing required fields` is written exactly when the body did decode, into
a request with an empty model or no message: the completeness check is
applied only to decoded requests. -/
theorem undecodable_body_is_400 (env : Env) (backend : OutboundRequest → DoResult)
    (r : Request) (hauth : r.Header.Get "Authorization" = "Bearer " ++ env "API_KEY") :
    (jsonDecodeChatRequest r.Body = none →
      writerCalls (handleChat env backend r) = [.error "Invalid request payload" 400] ∧
      responseStatus (handleChat env backend r) = 400 ∧
      responseBody (handleChat env backend r) = [.text "Invalid request payload"] ∧
      (outboundCalls (handleChat env backend r)).length = 0) ∧
    (BodyPart.text "Missing required fields" ∈ responseBody (handleChat env backend r) ↔
      ∃ c, jsonDecodeChatRequest r.Body = some c ∧ (c.Model = "" ∨ c.Messages.length = 0)) := by
  constructor
  · intro hdec
    rw [handleChat_of_undecodable env backend r hauth hdec]
    simp [writerCalls, outboundCalls, responseStatus, responseBody, statusOf, bodyOf]
  · rcases authorized_run_cases env backend r hauth with
      ⟨hd, hw, -⟩ | ⟨c, hd, hmiss, hw, -⟩ |
      ⟨c, hd, hmodel, hmsgs, -, ⟨-, hw⟩ | ⟨e, -, -, hw⟩ | ⟨sc, b, -, -, hw⟩ | ⟨sc, b, resp, -, -, hw⟩⟩
    · simp [responseBody, hw, bodyOf, hd]
    · simp only [responseBody, hw, bodyOf, hd]
      simp only [List.mem_singleton, true_iff]
      exact ⟨c, rfl, hmiss⟩
    all_goals
      simp only [responseBody, hw, bodyOf, hd]
      constructor
      · intro hmem
        simp at hmem
      · rintro ⟨c2, hc2, hm⟩
        cases hc2
        rcases hm with h | h
        · exact absurd h hmodel
        · exact absurd h hmsgs

/-- A request body that is not JSON, and one whose model has the wrong
type, are answered 400 with the text for an invalid payload. -/
theorem undecodable_body_is_400_witness :
    malformedRequest.Header.Get "Authorization" = "Bearer " ++ exampleEnv "API_KEY" ∧
    jsonDecodeChatRequest malformedRequest.Body = none ∧
    responseStatus (handleChat exampleEnv scenarioBackend malformedRequest) = 400 ∧
    responseBody (handleChat exampleEnv scenarioBackend malformedRequest)
      = [.text "Invalid request payload"] ∧
    jsonDecodeChatRequest wrongTypeRequest.Body = none ∧
    responseBody (handleChat exampleEnv scenarioBackend wrongTypeRequest)
      = [.text "Invalid request payload"] :=
  have h := (undecodable_body_is_400 exampleEnv scenarioBackend malformedRequest
    (by decide)).1 rfl
  have h2 := (undecodable_body_is_400 exampleEnv scenarioBackend wrongTypeRequest
    (by decide)).1 (by decide)
  ⟨by decide, rfl, h.2.1, h.2.2.1, by decide, h2.2.2.1⟩

/-! ## One response per request -/

/-- The calls `handleChat` makes on the response writer, over all inputs:
one `http.Error`, or the content type followed by one `Encode`. -/
theorem writerCalls_shapes (env : Env) (backend : OutboundRequest → DoResult) (r : Request) :
    writerCalls (handleChat env backend r) = [.error "Unauthorized" 401] ∨
    writerCalls (handleChat env backend r) = [.error "Invalid request payload" 400] ∨
    writerCalls (handleChat env backend r) = [.error "Missing required fields" 400] ∨
    writerCalls (handleChat env backend r) = [.error "Request timed out" 504] ∨
    writerCalls (handleChat env backend r) = [.error "Error contacting Ollama API" 500] ∨
    writerCalls (handleChat env backend r) = [.error "Error reading Ollama response" 500] ∨
    ∃ resp, writerCalls (handleChat env backend r)
      = [.setHeader "Content-Type" "application/json", .encode resp] := by
  by_cases hauth : r.Header.Get "Authorization" = "Bearer " ++ env "API_KEY"
  · rcases authorized_run_cases env backend r hauth with
      ⟨-, hw, -⟩ | ⟨c, -, -, hw, -⟩ |
      ⟨c, -, -, -, -, ⟨-, hw⟩ | ⟨e, -, -, hw⟩ | ⟨sc, b, -, -, hw⟩ | ⟨sc, b, resp, -, -, hw⟩⟩
    · exact Or.inr (Or.inl hw)
    · exact Or.inr (Or.inr (Or.inl hw))
    · exact Or.inr (Or.inr (Or.inr (Or.inl hw)))
    · exact Or.inr (Or.inr (Or.inr (Or.inr (Or.inl hw))))
    · exact Or.inr (Or.inr (Or.inr (Or.inr (Or.inr (Or.inl hw)))))
    · exact Or.inr (Or.inr (Or.inr (Or.inr (Or.inr (Or.inr ⟨resp, hw⟩)))))
  · left
    rw [handleChat_of_bad_credential env backend r hauth]
    simp [writerCalls]

/-- No run makes more than one outbound call. -/
theorem outboundCalls_length_le_one (env : Env) (backend : OutboundRequest → DoResult)
    (r : Request) : (outboundCalls (handleChat env backend r)).length ≤ 1 := by
  by_cases hauth : r.Header.Get "Authorization" = "Bearer " ++ env "API_KEY"
  · rcases authorized_run_cases env backend r hauth with
      ⟨-, -, hc⟩ | ⟨c, -, -, -, hc⟩ | ⟨c, -, -, -, hc, -⟩ <;> simp [hc]
  · rw [handleChat_of_bad_credential env backend r hauth]
    simp [outboundCalls]

/-- C8: for every request, credential, body and backend behaviour, the
calls `handleChat` makes on the response writer realise exactly one of the
terminal outcomes Completed (200), Unauthorized (401), BadRequest (400),
InternalError (500), BackendUnreachable (500), GatewayTimeout (504), with
the status of that outcome; exactly one body is written; an `http.Error`
call is the only call on the writer of its run, so nothing is written after
an error response; the encoded success body appears only in runs without
any `http.Error`; and at most one outbound call is made. -/
theorem exactly_one_terminal_outcome (env : Env) (backend : OutboundRequest → DoResult)
    (r : Request) :
    (∃! t : Terminal, t.Reached (writerCalls (handleChat env backend r))) ∧
    (∀ t : Terminal, t.Reached (writerCalls (handleChat env backend r)) →
      responseStatus (handleChat env backend r) = t.status) ∧
    (responseBody (handleChat env backend r)).length = 1 ∧
    (∀ msg code, WriterCall.error msg code ∈ writerCalls (handleChat env backend r) →
      writerCalls (handleChat env backend r) = [.error msg code]) ∧
    (∀ resp, WriterCall.encode resp ∈ writerCalls (handleChat env backend r) →
      ∀ msg code, WriterCall.error msg code ∉ writerCalls (handleChat env backend r)) ∧
    (outboundCalls (handleChat env backend r)).length ≤ 1 := by
  refine ⟨?_, ?_, ?_, ?_, ?_, outboundCalls_length_le_one env backend r⟩
  · rcases writerCalls_shapes env backend r with h | h | h | h | h | h | ⟨resp, h⟩
    · refine ⟨.Unauthorized, by simp [Terminal.Reached, h], ?_⟩
      intro t ht
      cases t <;> simp [Terminal.Reached, h] at ht ⊢
    · refine ⟨.BadRequest, by simp [Terminal.Reached, h], ?_⟩
      intro t ht
      cases t <;> simp [Terminal.Reached, h] at ht ⊢
    · refine ⟨.BadRequest, by simp [Terminal.Reached, h], ?_⟩
      intro t ht
      cases t <;> simp [Terminal.Reached, h] at ht ⊢
    · refine ⟨.GatewayTimeout, by simp [Terminal.Reached, h], ?_⟩
      intro t ht
      cases t <;> simp [Terminal.Reached, h] at ht ⊢
    · refine ⟨.BackendUnreachable, by simp [Terminal.Reached, h], ?_⟩
      intro t ht
      cases t <;> simp [Terminal.Reached, h] at ht ⊢
    · refine ⟨.InternalError, by simp [Terminal.Reached, h], ?_⟩
      intro t ht
      cases t <;> simp [Terminal.Reached, h] at ht ⊢
    · refine ⟨.Completed, by simp [Terminal.Reached, h], ?_⟩
      intro t ht
      cases t <;> simp [Terminal.Reached, h] at ht ⊢
  · intro t ht
    rcases writerCalls_shapes env backend r with h | h | h | h | h | h | ⟨resp, h⟩ <;>
      cases t <;>
      simp [Terminal.Reached, h] at ht <;>
      simp [responseStatus, h, statusOf, Terminal.status, StatusOK]
  · rcases writerCalls_shapes env backend r with h | h | h | h | h | h | ⟨resp, h⟩ <;>
      simp [responseBody, h, bodyOf]
  · intro msg code hmem
    rcases writerCalls_shapes env backend r with h | h | h | h | h | h | ⟨resp, h⟩ <;>
      rw [h] at hmem ⊢ <;> simp at hmem ⊢ <;> simp [hmem]
  · intro resp hmem msg code
    rcases writerCalls_shapes env backend r with h | h | h | h | h | h | ⟨resp2, h⟩ <;>
      rw [h] at hmem ⊢ <;> simp at hmem ⊢

/-- C9: a request without an Authorization header reads the empty string
as its credential and is answered 401 for every configured secret, the
empty one included; and when the configured secret is empty, the run gets
past the authentication stage (is answered something other than 401)
exactly when the header value is `Bearer` followed by one space: the
values `Bearer` and `bearer ` are both answered 401. -/
theorem absent_header_and_empty_secret (env : Env) (backend : OutboundRequest → DoResult)
    (r : Request) :
    ((∀ kv ∈ r.Header, kv.1 ≠ "Authorization") →
      r.Header.Get "Authorization" = "" ∧
      writerCalls (handleChat env backend r) = [.error "Unauthorized" 401] ∧
      responseStatus (handleChat env backend r) = 401) ∧
    (env "API_KEY" = "" →
      (responseStatus (handleChat env backend r) ≠ 401 ↔
        r.Header.Get "Authorization" = "Bearer ")) ∧
    (env "API_KEY" = "" →
      r.Header.Get "Authorization" = "Bearer" ∨ r.Header.Get "Authorization" = "bearer " →
      responseStatus (handleChat env backend r) = 401) := by
  have hget : (∀ kv ∈ r.Header, kv.1 ≠ "Authorization") → r.Header.Get "Authorization" = "" := by
    generalize r.Header = hs
    induction hs with
    | nil => intro _; rfl
    | cons kv rest ih =>
      obtain ⟨k, v⟩ := kv
      intro h
      have hk : k ≠ "Authorization" := h (k, v) (List.mem_cons_self _ _)
      simp only [Header.Get, hk, if_false]
      exact ih (fun kv hkv => h kv (List.mem_cons_of_mem _ hkv))
  have hiff : env "API_KEY" = "" →
      (responseStatus (handleChat env backend r) ≠ 401 ↔
        r.Header.Get "Authorization" = "Bearer ") := by
    intro hkey
    constructor
    · intro hst
      by_contra hne
      have hbad : r.Header.Get "Authorization" ≠ "Bearer " ++ env "API_KEY" := by
        rw [hkey]; simpa using hne
      apply hst
      rw [handleChat_of_bad_credential env backend r hbad]
      simp [responseStatus, writerCalls, statusOf]
    · intro hval
      have hauth : r.Header.Get "Authorization" = "Bearer " ++ env "API_KEY" := by
        rw [hkey, hval]; rfl
      rcases authorized_run_cases env backend r hauth with
        ⟨-, hw, -⟩ | ⟨c, -, -, hw, -⟩ |
        ⟨c, -, -, -, -, ⟨-, hw⟩ | ⟨e, -, -, hw⟩ | ⟨sc, b, -, -, hw⟩ | ⟨sc, b, resp, -, -, hw⟩⟩ <;>
        simp [responseStatus, hw, statusOf, StatusOK]
  refine ⟨?_, hiff, ?_⟩
  · intro habs
    have hempty := hget habs
    have hbad : r.Header.Get "Authorization" ≠ "Bearer " ++ env "API_KEY" := by
      rw [hempty]
      intro h
      have hlen := congrArg String.length h
      have h7 : "Bearer ".length = 7 := by decide
      rw [String.length_append, h7] at hlen
      have h0 : "".length = 0 := by decide
      omega
    rw [handleChat_of_bad_credential env backend r hbad]
    exact ⟨hempty, by simp [writerCalls], by simp [responseStatus, writerCalls, statusOf]⟩
  · intro hkey hval
    by_contra hst
    have hb := (hiff hkey).1 hst
    rcases hval with h | h <;> rw [h] at hb <;> exact absurd hb (by decide)

/-- The empty secret with the header values `Bearer ` (passes) and `Bearer`
(401), and a request without the header (401). -/
theorem absent_header_and_empty_secret_witness :
    emptyEnv "API_KEY" = "" ∧
    responseStatus (handleChat emptyEnv scenarioBackend
      ⟨"10.0.0.7:4711", [("Authorization", "Bearer ")], some scenarioBody⟩) ≠ 401 ∧
    responseStatus (handleChat emptyEnv scenarioBackend
      ⟨"10.0.0.7:4711", [("Authorization", "Bearer")], some scenarioBody⟩) = 401 ∧
    responseStatus (handleChat exampleEnv scenarioBackend
      ⟨"10.0.0.7:4711", [("Content-Type", "application/json")], some scenarioBody⟩) = 401 :=
  ⟨rfl,
   ((absent_header_and_empty_secret emptyEnv scenarioBackend
      ⟨"10.0.0.7:4711", [("Authorization", "Bearer ")], some scenarioBody⟩).2.1 rfl).2 rfl,
   (absent_header_and_empty_secret emptyEnv scenarioBackend
      ⟨"10.0.0.7:4711", [("Authorization", "Bearer")], some scenarioBody⟩).2.2 rfl
      (Or.inl rfl),
   ((absent_header_and_empty_secret exampleEnv scenarioBackend
      ⟨"10.0.0.7:4711", [("Content-Type", "application/json")], some scenarioBody⟩).1
      (by decide)).2.2⟩

/-! ## Relaying the reply -/

/-- Decoding the object written for a `ChatResponse` gives the response
back, whatever the target held. -/
theorem decodeChatResponseFields_toJson (cur c : ChatResponse) :
    decodeChatResponseFields cur c.toJson.members = some c := by
  obtain ⟨-, -, -, -, h5, h6, h7, h8, h9, h10⟩ := foldName_fields_distinct
  have hm := decodeMessage_toJson cur.Message c.Message
  simp [ChatResponse.toJson, Json.members, decodeChatResponseFields, decodeString, decodeBool,
    h5, h6, h7, h8, h9, h10, hm]

/-- Keys that name no field of `Message` leave it as it was; a field no
key names keeps its value. -/
theorem decodeMessageFields_absent (members : List (String × Json)) :
    ∀ cur out : Message, decodeMessageFields cur members = some out →
      ((∀ kv ∈ members, foldName kv.1 ≠ foldName "role") → out.Role = cur.Role) ∧
      ((∀ kv ∈ members, foldName kv.1 ≠ foldName "content") → out.Content = cur.Content) := by
  induction members with
  | nil =>
    intro cur out h
    simp only [decodeMessageFields, Option.some.injEq] at h
    subst h
    exact ⟨fun _ => rfl, fun _ => rfl⟩
  | cons kv rest ih =>
    obtain ⟨k, v⟩ := kv
    intro cur out h
    simp only [decodeMessageFields] at h
    split_ifs at h with h1 h2
    · cases hs : decodeString cur.Role v with
      | none => simp [hs] at h
      | some s =>
        simp only [hs] at h
        obtain ⟨-, i2⟩ := ih _ _ h
        exact ⟨fun habs => absurd h1 (habs (k, v) (List.mem_cons_self _ _)),
               fun habs => i2 (fun kv hkv => habs kv (List.mem_cons_of_mem _ hkv))⟩
    · cases hs : decodeString cur.Content v with
      | none => simp [hs] at h
      | some s =>
        simp only [hs] at h
        obtain ⟨i1, -⟩ := ih _ _ h
        exact ⟨fun habs => i1 (fun kv hkv => habs kv (List.mem_cons_of_mem _ hkv)),
               fun habs => absurd h2 (habs (k, v) (List.mem_cons_self _ _))⟩
    · obtain ⟨i1, i2⟩ := ih _ _ h
      exact ⟨fun habs => i1 (fun kv hkv => habs kv (List.mem_cons_of_mem _ hkv)),
             fun habs => i2 (fun kv hkv => habs kv (List.mem_cons_of_mem _ hkv))⟩

/-- The same for a JSON value decoded into a `Message`. -/
theorem decodeMessage_absent (v : Json) (cur out : Message)
    (h : decodeMessage cur v = some out) :
    ((∀ kv ∈ v.members, foldName kv.1 ≠ foldName "role") → out.Role = cur.Role) ∧
    ((∀ kv ∈ v.members, foldName kv.1 ≠ foldName "content") → out.Content = cur.Content) := by
  cases v with
  | obj members => exact decodeMessageFields_absent members cur out h
  | null =>
    simp only [decodeMessage, Option.some.injEq] at h
    subst h
    exact ⟨fun _ => rfl, fun _ => rfl⟩
  | bool b => simp [decodeMessage] at h
  | num a b => simp [decodeMessage] at h
  | str s => simp [decodeMessage] at h
  | arr es => simp [decodeMessage] at h

/-- A field of `ChatResponse` that no key of the object names keeps the
value it had; the fields of its message that no key of a `message` member
names keep theirs. -/
theorem decodeChatResponseFields_absent (members : List (String × Json)) :
    ∀ cur out : ChatResponse, decodeChatResponseFields cur members = some out →
      ((∀ kv ∈ members, foldName kv.1 ≠ foldName "model") → out.Model = cur.Model) ∧
      ((∀ kv ∈ members, foldName kv.1 ≠ foldName "created_at") →
        out.CreatedAt = cur.CreatedAt) ∧
      ((∀ kv ∈ members, foldName kv.1 ≠ foldName "done") → out.Done = cur.Done) ∧
      ((∀ kv ∈ members, foldName kv.1 ≠ foldName "message") → out.Message = cur.Message) ∧
      ((∀ kv ∈ members, foldName kv.1 = foldName "message" →
          ∀ kv2 ∈ kv.2.members, foldName kv2.1 ≠ foldName "role") →
        out.Message.Role = cur.Message.Role) ∧
      ((∀ kv ∈ members, foldName kv.1 = foldName "message" →
          ∀ kv2 ∈ kv.2.members, foldName kv2.1 ≠ foldName "content") →
        out.Message.Content = cur.Message.Content) := by
  induction members with
  | nil =>
    intro cur out h
    simp only [decodeChatResponseFields, Option.some.injEq] at h
    subst h
    exact ⟨fun _ => rfl, fun _ => rfl, fun _ => rfl, fun _ => rfl, fun _ => rfl, fun _ => rfl⟩
  | cons kv rest ih =>
    obtain ⟨k, v⟩ := kv
    intro cur out h
    have tl : ∀ {P : String × Json → Prop}, (∀ kv ∈ (k, v) :: rest, P kv) → ∀ kv ∈ rest, P kv :=
      fun habs kv hkv => habs kv (List.mem_cons_of_mem _ hkv)
    have hd : ∀ {P : String × Json → Prop}, (∀ kv ∈ (k, v) :: rest, P kv) → P (k, v) :=
      fun habs => habs (k, v) (List.mem_cons_self _ _)
    simp only [decodeChatResponseFields] at h
    split_ifs at h with h1 h2 h3 h4
    · cases hs : decodeString cur.Model v with
      | none => simp [hs] at h
      | some s =>
        simp only [hs] at h
        obtain ⟨-, i2, i3, i4, i5, i6⟩ := ih _ _ h
        exact ⟨fun habs => absurd h1 (hd habs), fun habs => i2 (tl habs),
          fun habs => i3 (tl habs), fun habs => i4 (tl habs), fun habs => i5 (tl habs),
          fun habs => i6 (tl habs)⟩
    · cases hs : decodeString cur.CreatedAt v with
      | none => simp [hs] at h
      | some s =>
        simp only [hs] at h
        obtain ⟨i1, -, i3, i4, i5, i6⟩ := ih _ _ h
        exact ⟨fun habs => i1 (tl habs), fun habs => absurd h2 (hd habs),
          fun habs => i3 (tl habs), fun habs => i4 (tl habs), fun habs => i5 (tl habs),
          fun habs => i6 (tl habs)⟩
    · cases hs : decodeBool cur.Done v with
      | none => simp [hs] at h
      | some s =>
        simp only [hs] at h
        obtain ⟨i1, i2, -, i4, i5, i6⟩ := ih _ _ h
        exact ⟨fun habs => i1 (tl habs), fun habs => i2 (tl habs),
          fun habs => absurd h3 (hd habs), fun habs => i4 (tl habs), fun habs => i5 (tl habs),
          fun habs => i6 (tl habs)⟩
    · cases hs : decodeMessage cur.Message v with
      | none => simp [hs] at h
      | some m =>
        simp only [hs] at h
        obtain ⟨j1, j2⟩ := decodeMessage_absent v cur.Message m hs
        obtain ⟨i1, i2, i3, -, i5, i6⟩ := ih _ _ h
        exact ⟨fun habs => i1 (tl habs), fun habs => i2 (tl habs),
          fun habs => i3 (tl habs), fun habs => absurd h4 (hd habs),
          fun habs => (i5 (tl habs)).trans (j1 (hd habs h4)),
          fun habs => (i6 (tl habs)).trans (j2 (hd habs h4))⟩
    · obtain ⟨i1, i2, i3, i4, i5, i6⟩ := ih _ _ h
      exact ⟨fun habs => i1 (tl habs), fun habs => i2 (tl habs), fun habs => i3 (tl habs),
        fun habs => i4 (tl habs), fun habs => i5 (tl habs), fun habs => i6 (tl habs)⟩

/-- Members that are all `role` or `content` strings decode into any
`Message`: a field with a member takes its value, the other keeps its own. -/
theorem decodeMessageFields_of_canonical (ro co : String) (members : List (String × Json))
    (hall : ∀ kv ∈ members, kv = ("role", Json.str ro) ∨ kv = ("content", Json.str co)) :
    ∀ cur : Message, ∃ out, decodeMessageFields cur members = some out ∧
      (("role", Json.str ro) ∈ members → out.Role = ro) ∧
      (("role", Json.str ro) ∉ members → out.Role = cur.Role) ∧
      (("content", Json.str co) ∈ members → out.Content = co) ∧
      (("content", Json.str co) ∉ members → out.Content = cur.Content) := by
  have hne := foldName_fields_distinct.1
  induction members with
  | nil => intro cur; exact ⟨cur, rfl, by simp⟩
  | cons kv rest ih =>
    intro cur
    have ih2 := ih (fun kv hkv => hall kv (List.mem_cons_of_mem _ hkv))
    rcases hall kv (List.mem_cons_self _ _) with rfl | rfl
    · obtain ⟨out, hout, a1, a2, a3, a4⟩ := ih2 { cur with Role := ro }
      refine ⟨out, by simp [decodeMessageFields, decodeString, hout], ?_, ?_, ?_, ?_⟩
      · intro _
        by_cases hm : ("role", Json.str ro) ∈ rest
        · exact a1 hm
        · exact a2 hm
      · intro hm
        exact absurd (List.mem_cons_self _ _) hm
      · intro hm
        rcases List.mem_cons.1 hm with h | h
        · simp at h
        · exact a3 h
      · intro hm
        exact a4 (fun h => hm (List.mem_cons_of_mem _ h))
    · obtain ⟨out, hout, a1, a2, a3, a4⟩ := ih2 { cur with Content := co }
      refine ⟨out, by simp [decodeMessageFields, decodeString, hout, hne], ?_, ?_, ?_, ?_⟩
      · intro hm
        rcases List.mem_cons.1 hm with h | h
        · simp at h
        · exact a1 h
      · intro hm
        exact a2 (fun h => hm (List.mem_cons_of_mem _ h))
      · intro _
        by_cases hm : ("content", Json.str co) ∈ rest
        · exact a3 hm
        · exact a4 hm
      · intro hm
        exact absurd (List.mem_cons_self _ _) hm

/-- An object whose members are, in any order, exactly a `role` string and
a `content` string decodes into the message with these two values. -/
theorem decodeMessage_of_perm (ro co : String) (members : List (String × Json))
    (hp : members.Perm [("role", Json.str ro), ("content", Json.str co)]) (cur : Message) :
    decodeMessage cur (Json.obj members) = some ⟨ro, co⟩ := by
  have hall : ∀ kv ∈ members, kv = ("role", Json.str ro) ∨ kv = ("content", Json.str co) := by
    intro kv hkv
    have := hp.subset hkv
    simpa using this
  obtain ⟨out, hout, a1, -, a3, -⟩ := decodeMessageFields_of_canonical ro co members hall cur
  have h1 : out.Role = ro := a1 (hp.symm.subset (by simp))
  have h2 : out.Content = co := a3 (hp.symm.subset (by simp))
  obtain ⟨r, c⟩ := out
  simp only at h1 h2
  subst h1 h2
  simpa [decodeMessage] using hout

/-- Members that are all one of four given members named `model`,
`created_at`, `done` and `message` (a string, a string, a boolean and a
value that decodes into `msg`) decode into any `ChatResponse`: a field with
a member takes its value, the others keep their own. -/
theorem decodeChatResponseFields_of_canonical (m c : String) (d : Bool) (vmsg : Json)
    (msg : Message) (hmsg : ∀ cur, decodeMessage cur vmsg = some msg)
    (members : List (String × Json))
    (hall : ∀ kv ∈ members, kv = ("model", Json.str m) ∨ kv = ("created_at", Json.str c) ∨
      kv = ("done", Json.bool d) ∨ kv = ("message", vmsg)) :
    ∀ cur : ChatResponse, ∃ out, decodeChatResponseFields cur members = some out ∧
      (("model", Json.str m) ∈ members → out.Model = m) ∧
      (("created_at", Json.str c) ∈ members → out.CreatedAt = c) ∧
      (("done", Json.bool d) ∈ members → out.Done = d) ∧
      (("message", vmsg) ∈ members → out.Message = msg) ∧
      (("model", Json.str m) ∉ members → out.Model = cur.Model) ∧
      (("created_at", Json.str c) ∉ members → out.CreatedAt = cur.CreatedAt) ∧
      (("done", Json.bool d) ∉ members → out.Done = cur.Done) ∧
      (("message", vmsg) ∉ members → out.Message = cur.Message) := by
  obtain ⟨-, -, -, -, h5, h6, h7, h8, h9, h10⟩ := foldName_fields_distinct
  induction members with
  | nil => intro cur; exact ⟨cur, rfl, by simp⟩
  | cons kv rest ih =>
    intro cur
    have ih2 := ih (fun kv hkv => hall kv (List.mem_cons_of_mem _ hkv))
    have up : ∀ {x : String × Json}, x ∉ kv :: rest → x ∉ rest :=
      fun hm h => hm (List.mem_cons_of_mem _ h)
    rcases hall kv (List.mem_cons_self _ _) with rfl | rfl | rfl | rfl
    · obtain ⟨out, hout, a1, a2, a3, a4, b1, b2, b3, b4⟩ := ih2 { cur with Model := m }
      refine ⟨out, by simp [decodeChatResponseFields, decodeString, hout], ?_, ?_, ?_, ?_,
        ?_, ?_, ?_, ?_⟩
      · intro _
        by_cases hm : ("model", Json.str m) ∈ rest
        · exact a1 hm
        · exact b1 hm
      · intro hm
        rcases List.mem_cons.1 hm with h | h
        · simp at h
        · exact a2 h
      · intro hm
        rcases List.mem_cons.1 hm with h | h
        · simp at h
        · exact a3 h
      · intro hm
        rcases List.mem_cons.1 hm with h | h
        · simp at h
        · exact a4 h
      · intro hm
        exact absurd (List.mem_cons_self _ _) hm
      · intro hm; exact b2 (up hm)
      · intro hm; exact b3 (up hm)
      · intro hm; exact b4 (up hm)
    · obtain ⟨out, hout, a1, a2, a3, a4, b1, b2, b3, b4⟩ := ih2 { cur with CreatedAt := c }
      refine ⟨out, by simp [decodeChatResponseFields, decodeString, hout, h5], ?_, ?_, ?_, ?_,
        ?_, ?_, ?_, ?_⟩
      · intro hm
        rcases List.mem_cons.1 hm with h | h
        · simp at h
        · exact a1 h
      · intro _
        by_cases hm : ("created_at", Json.str c) ∈ rest
        · exact a2 hm
        · exact b2 hm
      · intro hm
        rcases List.mem_cons.1 hm with h | h
        · simp at h
        · exact a3 h
      · intro hm
        rcases List.mem_cons.1 hm with h | h
        · simp at h
        · exact a4 h
      · intro hm; exact b1 (up hm)
      · intro hm
        exact absurd (List.mem_cons_self _ _) hm
      · intro hm; exact b3 (up hm)
      · intro hm; exact b4 (up hm)
    · obtain ⟨out, hout, a1, a2, a3, a4, b1, b2, b3, b4⟩ := ih2 { cur with Done := d }
      refine ⟨out, by simp [decodeChatResponseFields, decodeBool, hout, h6, h7], ?_, ?_, ?_,
        ?_, ?_, ?_, ?_, ?_⟩
      · intro hm
        rcases List.mem_cons.1 hm with h | h
        · simp at h
        · exact a1 h
      · intro hm
        rcases List.mem_cons.1 hm with h | h
        · simp at h
        · exact a2 h
      · intro _
        by_cases hm : ("done", Json.bool d) ∈ rest
        · exact a3 hm
        · exact b3 hm
      · intro hm
        rcases List.mem_cons.1 hm with h | h
        · simp at h
        · exact a4 h
      · intro hm; exact b1 (up hm)
      · intro hm; exact b2 (up hm)
      · intro hm
        exact absurd (List.mem_cons_self _ _) hm
      · intro hm; exact b4 (up hm)
    · obtain ⟨out, hout, a1, a2, a3, a4, b1, b2, b3, b4⟩ := ih2 { cur with Message := msg }
      refine ⟨out, by simp [decodeChatResponseFields, hmsg, hout, h8, h9, h10], ?_, ?_, ?_,
        ?_, ?_, ?_, ?_, ?_⟩
      · intro hm
        rcases List.mem_cons.1 hm with h | h
        · simp at h
        · exact a1 h
      · intro hm
        rcases List.mem_cons.1 hm with h | h
        · simp at h
        · exact a2 h
      · intro hm
        rcases List.mem_cons.1 hm with h | h
        · simp at h
        · exact a3 h
      · intro _
        by_cases hm : ("message", vmsg) ∈ rest
        · exact a4 hm
        · exact b4 hm
      · intro hm; exact b1 (up hm)
      · intro hm; exact b2 (up hm)
      · intro hm; exact b3 (up hm)
      · intro hm
        exact absurd (List.mem_cons_self _ _) hm

/-- An object whose members are, in any order, exactly `model`,
`created_at`, `done` and a `message` object whose members are, in any
order, exactly `role` and `content`, decodes into the `ChatResponse` with
these values. -/
theorem decodeChatResponse_of_perm (m c : String) (d : Bool) (ro co : String)
    (members msgMembers : List (String × Json))
    (hp : members.Perm [("model", Json.str m), ("created_at", Json.str c),
      ("done", Json.bool d), ("message", Json.obj msgMembers)])
    (hq : msgMembers.Perm [("role", Json.str ro), ("content", Json.str co)]) :
    decodeChatResponse (Json.obj members) = some ⟨m, c, d, ⟨ro, co⟩⟩ := by
  have hall : ∀ kv ∈ members, kv = ("model", Json.str m) ∨ kv = ("created_at", Json.str c) ∨
      kv = ("done", Json.bool d) ∨ kv = ("message", Json.obj msgMembers) := by
    intro kv hkv
    have := hp.subset hkv
    simpa using this
  obtain ⟨out, hout, a1, a2, a3, a4, -⟩ :=
    decodeChatResponseFields_of_canonical m c d (Json.obj msgMembers) ⟨ro, co⟩
      (decodeMessage_of_perm ro co msgMembers hq) members hall ChatResponse.zero
  have h1 : out.Model = m := a1 (hp.symm.subset (by simp))
  have h2 : out.CreatedAt = c := a2 (hp.symm.subset (by simp))
  have h3 : out.Done = d := a3 (hp.symm.subset (by simp))
  have h4 : out.Message = ⟨ro, co⟩ := a4 (hp.symm.subset (by simp))
  obtain ⟨x1, x2, x3, x4⟩ := out
  simp only at h1 h2 h3 h4
  subst h1 h2 h3 h4
  simpa [decodeChatResponse] using hout

/-- C4, as the code has it: for a request with the correct credential and
a complete body whose backend response body decodes into ChatResponse, the
status is 200 and the body written to the caller is the encoding of the
decoded ChatResponse: decoding it gives the same ChatResponse the backend
body gave.  It has the members of the backend body (same names, same
values) when that body is an object whose members are, in any order,
exactly a `model` string, a `created_at` string, a `done` boolean and a
`message` object whose members are, in any order, exactly a `role` string
and a `content` string (Scenario A). -/
theorem reply_relayed_as_chat_response (env : Env) (backend : OutboundRequest → DoResult)
    (r : Request) (chatReq : ChatRequest) (statusCode : Nat) (body : Option Json)
    (chatResp : ChatResponse)
    (hauth : r.Header.Get "Authorization" = "Bearer " ++ env "API_KEY")
    (hdec : jsonDecodeChatRequest r.Body = some chatReq)
    (hmodel : chatReq.Model ≠ "") (hmsgs : chatReq.Messages.length ≠ 0)
    (hdo : backend (outboundFor chatReq) = .resp statusCode body)
    (hresp : jsonDecodeChatResponse body = some chatResp) :
    responseStatus (handleChat env backend r) = 200 ∧
    responseBody (handleChat env backend r) = [.json chatResp.toJson] ∧
    decodeChatResponse chatResp.toJson = some chatResp ∧
    (∀ (members msgMembers : List (String × Json)) (m c : String) (d : Bool) (ro co : String),
      body = some (Json.obj members) →
      members.Perm [("model", Json.str m), ("created_at", Json.str c),
        ("done", Json.bool d), ("message", Json.obj msgMembers)] →
      msgMembers.Perm [("role", Json.str ro), ("content", Json.str co)] →
      responseBody (handleChat env backend r) =
        [.json (Json.obj [("model", Json.str m), ("created_at", Json.str c),
          ("done", Json.bool d),
          ("message", Json.obj [("role", Json.str ro), ("content", Json.str co)])])]) := by
  have hbody : responseBody (handleChat env backend r) = [.json chatResp.toJson] := by
    rw [handleChat_of_reply env backend r chatReq statusCode body chatResp hauth hdec hmodel
      hmsgs hdo hresp]
    simp [writerCalls, responseBody, bodyOf]
  refine ⟨?_, hbody, ?_, ?_⟩
  · rw [handleChat_of_reply env backend r chatReq statusCode body chatResp hauth hdec hmodel
      hmsgs hdo hresp]
    simp [writerCalls, responseStatus, statusOf, StatusOK]
  · exact decodeChatResponseFields_toJson ChatResponse.zero chatResp
  · intro members msgMembers m c d ro co hb hp hq
    rw [hb] at hresp
    have hcanon := decodeChatResponse_of_perm m c d ro co members msgMembers hp hq
    simp only [jsonDecodeChatResponse] at hresp
    rw [hcanon] at hresp
    cases hresp
    rw [hbody]
    rfl

/-- Scenario A: the caller receives 200 with the body the backend sent. -/
theorem reply_relayed_as_chat_response_witness :
    scenarioRequest.Header.Get "Authorization" = "Bearer " ++ exampleEnv "API_KEY" ∧
    jsonDecodeChatRequest scenarioRequest.Body = some scenarioChatRequest ∧
    scenarioChatRequest.Model ≠ "" ∧ scenarioChatRequest.Messages.length ≠ 0 ∧
    scenarioBackend (outboundFor scenarioChatRequest) = .resp 200 (some scenarioReply) ∧
    jsonDecodeChatResponse (some scenarioReply)
      = some ⟨"llama2", "t0", true, ⟨"assistant", "hello"⟩⟩ ∧
    responseStatus (handleChat exampleEnv scenarioBackend scenarioRequest) = 200 ∧
    responseBody (handleChat exampleEnv scenarioBackend scenarioRequest)
      = [.json scenarioReply] :=
  have h := reply_relayed_as_chat_response exampleEnv scenarioBackend scenarioRequest
    scenarioChatRequest 200 (some scenarioReply) ⟨"llama2", "t0", true, ⟨"assistant", "hello"⟩⟩
    (by decide) (by decide) (by decide) (by decide) rfl (by decide)
  ⟨by decide, by decide, by decide, by decide, rfl, by decide, h.1, h.2.1⟩

/-- C4 as stated fails: the backend body `meteredReply` decodes into
ChatResponse and the caller gets status 200, but the body written is not
the backend body: it has a member `created_at` the backend body does not
have, and lacks the member `total_duration` the backend body has. -/
theorem relay_not_verbatim_counterexample :
    scenarioRequest.Header.Get "Authorization" = "Bearer " ++ exampleEnv "API_KEY" ∧
    jsonDecodeChatRequest scenarioRequest.Body = some scenarioChatRequest ∧
    meteredBackend (outboundFor scenarioChatRequest) = .resp 200 (some meteredReply) ∧
    jsonDecodeChatResponse (some meteredReply)
      = some ⟨"llama2", "", true, ⟨"assistant", "hello"⟩⟩ ∧
    responseStatus (handleChat exampleEnv meteredBackend scenarioRequest) = 200 ∧
    responseBody (handleChat exampleEnv meteredBackend scenarioRequest) =
      [.json (Json.obj [("model", Json.str "llama2"), ("created_at", Json.str ""),
        ("done", Json.bool true),
        ("message", Json.obj [("role", Json.str "assistant"),
          ("content", Json.str "hello")])])] ∧
    meteredReply.memberNames = ["model", "message", "done", "total_duration"] ∧
    ¬ (∃ out, responseBody (handleChat exampleEnv meteredBackend scenarioRequest) = [.json out] ∧
        ∀ name, name ∈ out.memberNames ↔ name ∈ meteredReply.memberNames) := by
  refine ⟨by decide, by decide, rfl, by decide, by decide, rfl, rfl, ?_⟩
  rintro ⟨out, hout, hnames⟩
  have hbody : responseBody (handleChat exampleEnv meteredBackend scenarioRequest) =
      [.json (Json.obj [("model", Json.str "llama2"), ("created_at", Json.str ""),
        ("done", Json.bool true),
        ("message", Json.obj [("role", Json.str "assistant"),
          ("content", Json.str "hello")])])] := rfl
  rw [hbody] at hout
  simp only [List.cons.injEq, BodyPart.json.injEq, and_true] at hout
  subst hout
  have h := (hnames "created_at").1 (by simp [Json.memberNames, Json.members])
  simp [Json.memberNames, Json.members, meteredReply] at h

/-- C10: the outcome does not depend on the status code of the backend:
for a request with the correct credential and a complete body, whatever
status code the backend response carries (4xx and 5xx included), if its
body decodes into ChatResponse the caller receives status 200 and the
re-encoded ChatResponse, an object with exactly the members `model`,
`created_at`, `done` and `message`, the latter with exactly `role` and
`content`.  A field that no member of the backend body names (names are
matched as encoding/json matches them, without regard to case) has its zero
value: the empty string, `false`, the empty message; and so has a field of
the message that no `message` member of the body names. -/
theorem reply_relayed_whatever_backend_status (env : Env)
    (backend : OutboundRequest → DoResult) (r : Request) (chatReq : ChatRequest)
    (statusCode : Nat) (body : Option Json) (chatResp : ChatResponse)
    (hauth : r.Header.Get "Authorization" = "Bearer " ++ env "API_KEY")
    (hdec : jsonDecodeChatRequest r.Body = some chatReq)
    (hmodel : chatReq.Model ≠ "") (hmsgs : chatReq.Messages.length ≠ 0)
    (hdo : backend (outboundFor chatReq) = .resp statusCode body)
    (hresp : jsonDecodeChatResponse body = some chatResp) :
    writerCalls (handleChat env backend r) =
      [.setHeader "Content-Type" "application/json", .encode chatResp] ∧
    responseStatus (handleChat env backend r) = 200 ∧
    responseBody (handleChat env backend r) =
      [.json (Json.obj [("model", Json.str chatResp.Model),
        ("created_at", Json.str chatResp.CreatedAt),
        ("done", Json.bool chatResp.Done),
        ("message", Json.obj [("role", Json.str chatResp.Message.Role),
          ("content", Json.str chatResp.Message.Content)])])] ∧
    (∀ v, body = some v →
      ((∀ kv ∈ v.members, foldName kv.1 ≠ foldName "model") → chatResp.Model = "") ∧
      ((∀ kv ∈ v.members, foldName kv.1 ≠ foldName "created_at") → chatResp.CreatedAt = "") ∧
      ((∀ kv ∈ v.members, foldName kv.1 ≠ foldName "done") → chatResp.Done = false) ∧
      ((∀ kv ∈ v.members, foldName kv.1 ≠ foldName "message") →
        chatResp.Message = ⟨"", ""⟩) ∧
      ((∀ kv ∈ v.members, foldName kv.1 = foldName "message" →
          ∀ kv2 ∈ kv.2.members, foldName kv2.1 ≠ foldName "role") →
        chatResp.Message.Role = "") ∧
      ((∀ kv ∈ v.members, foldName kv.1 = foldName "message" →
          ∀ kv2 ∈ kv.2.members, foldName kv2.1 ≠ foldName "content") →
        chatResp.Message.Content = "")) := by
  refine ⟨?_, ?_, ?_, ?_⟩
  · rw [handleChat_of_reply env backend r chatReq statusCode body chatResp hauth hdec hmodel
      hmsgs hdo hresp]
    simp [writerCalls]
  · rw [handleChat_of_reply env backend r chatReq statusCode body chatResp hauth hdec hmodel
      hmsgs hdo hresp]
    simp [writerCalls, responseStatus, statusOf, StatusOK]
  · rw [handleChat_of_reply env backend r chatReq statusCode body chatResp hauth hdec hmodel
      hmsgs hdo hresp]
    simp [writerCalls, responseBody, bodyOf, ChatResponse.toJson, Message.toJson]
  · intro v hv
    rw [hv] at hresp
    simp only [jsonDecodeChatResponse] at hresp
    cases v with
    | obj members =>
      simp only [decodeChatResponse] at hresp
      exact decodeChatResponseFields_absent members ChatResponse.zero chatResp hresp
    | null =>
      simp only [decodeChatResponse, Option.some.injEq] at hresp
      subst hresp
      exact ⟨fun _ => rfl, fun _ => rfl, fun _ => rfl, fun _ => rfl, fun _ => rfl, fun _ => rfl⟩
    | bool b => simp [decodeChatResponse] at hresp
    | num a b => simp [decodeChatResponse] at hresp
    | str s => simp [decodeChatResponse] at hresp
    | arr es => simp [decodeChatResponse] at hresp

/-- A backend answering 503 with the reply of Scenario A: the caller
receives 200. -/
theorem reply_relayed_whatever_backend_status_witness :
    scenarioRequest.Header.Get "Authorization" = "Bearer " ++ exampleEnv "API_KEY" ∧
    jsonDecodeChatRequest scenarioRequest.Body = some scenarioChatRequest ∧
    scenarioChatRequest.Model ≠ "" ∧ scenarioChatRequest.Messages.length ≠ 0 ∧
    failingStatusBackend (outboundFor scenarioChatRequest) = .resp 503 (some scenarioReply) ∧
    jsonDecodeChatResponse (some scenarioReply)
      = some ⟨"llama2", "t0", true, ⟨"assistant", "hello"⟩⟩ ∧
    responseStatus (handleChat exampleEnv failingStatusBackend scenarioRequest) = 200 :=
  have h := reply_relayed_whatever_backend_status exampleEnv failingStatusBackend
    scenarioRequest scenarioChatRequest 503 (some scenarioReply)
    ⟨"llama2", "t0", true, ⟨"assistant", "hello"⟩⟩
    (by decide) (by decide) (by decide) (by decide) rfl (by decide)
  ⟨by decide, by decide, by decide, by decide, rfl, by decide, h.2.1⟩

end FlowNLP
